import Mathlib

/-!
Shallow embedding of the Digit5 Converter API (`src/main.py`): a FastAPI file
conversion service.  Handlers are modelled as pure functions from a request
(auth header, uploaded files, parameters) and an abstract codec environment to
an `Outcome`: a JSON response together with the ordered trace of observable
effects (upload reads, artifact writes, deletion attempts).  Third-party
libraries (PIL, img2pdf, PyMuPDF/fitz, PyPDF2) are abstracted as the fields of
a `Codec`; the uuid4 hex supply is an abstract stream `hexs : Nat → String`.
-/

namespace Digit5

/-- Raw byte payload of an upload or a generated artifact. -/
abbrev Bytes := List Nat

/-- Opaque handle for a decoded PIL image object. -/
abbrev Img := Nat

/-- Opaque handle for a parsed PDF page object. -/
abbrev Page := Nat

/-- An uploaded multipart file: declared client filename plus content bytes. -/
structure Upload where
  filename : String
  content : Bytes
deriving Repr, DecidableEq

/-- Observable effects of a request: reading an upload body, writing an
artifact into the output directory, or attempting to delete an entry. -/
inductive Ev where
  | read (content : Bytes)
  | write (name : String) (data : Bytes)
  | tryRemove (name : String) (ok : Bool)
deriving Repr, DecidableEq

/-- The JSON responses produced by the handlers of `src/main.py`. -/
inductive Response where
  | error (status : Nat) (detail : String)
  | fileResult (fileUrl filename : String)
  | compressResult (fileUrl filename : String) (quality : Int)
  | filesResult (files : List String) (pageCount : Nat)
  | cleanupResult (removed : Nat)
deriving Repr, DecidableEq

/-- Result of one request: the response and the ordered effect trace. -/
structure Outcome where
  response : Response
  events : List Ev
deriving Repr, DecidableEq

/-- The artifact writes contained in an effect trace, in order. -/
def writes (evs : List Ev) : List (String × Bytes) :=
  evs.filterMap fun e =>
    match e with
    | .write n b => some (n, b)
    | _ => none

/-- The artifact names written in an effect trace, in order. -/
def writeNames (evs : List Ev) : List String :=
  (writes evs).map Prod.fst

/-- The third-party codec libraries used by `src/main.py`, modelled as abstract
functions: PIL `verify`/`open(...).convert` and `save`, `img2pdf.convert`,
`fitz.open` plus `page.get_pixmap(Matrix(a,b)).tobytes('png')`, and PyPDF2
reading/serialisation.  Fallible library calls return `Option`/`Except`
(`none`/`.error` stands for a raised exception). -/
structure Codec where
  verifyImage : Bytes → Bool
  decodeImage : Bytes → Option Img
  toRGB : Img → Img
  encodeImage : Img → String → Bytes
  encodeJpegQ : Img → Int → Bytes
  img2pdfConvert : List Bytes → Except String Bytes
  fitzOpen : Bytes → Option (List Page)
  pixmapPng : Page → Nat → Nat → Except String Bytes
  pypdfRead : Bytes → Except String (List Page)
  writePdf : List Page → Bytes

/-- `_check_secret` of `src/main.py`: Python truthiness on `API_SECRET` and on
the supplied `x_api_key`; returns `true` when the guard passes (no exception)
and `false` when it raises HTTP 401. -/
def check_secret (apiSecret x_api_key : Option String) : Bool :=
  match apiSecret with
  | none => true
  | some s =>
    if s = "" then true
    else
      match x_api_key with
      | none => false
      | some k => if k = "" then false else k = s

/-- `_unique_filename` of `src/main.py`: `f"{prefix}_{uuid.uuid4().hex}.{ext}"`,
with the uuid4 hex digest passed in explicitly as `hex`. -/
def unique_filename (pre ext hex : String) : String :=
  pre ++ "_" ++ hex ++ "." ++ ext

/-- The read-and-verify loop of `image_to_pdf`: reads each upload in order and
verifies it with PIL; stops at the first upload whose verification raises,
returning its declared filename together with the reads performed so far. -/
def readAndVerify (c : Codec) : List Upload → Except (String × List Ev) (List Bytes × List Ev)
  | [] => .ok ([], [])
  | f :: rest =>
    if c.verifyImage f.content then
      match readAndVerify c rest with
      | .ok (bs, evs) => .ok (f.content :: bs, Ev.read f.content :: evs)
      | .error (n, evs) => .error (n, Ev.read f.content :: evs)
    else .error (f.filename, [Ev.read f.content])

/-- `image_to_pdf` of `src/main.py` (`POST /convert/image-to-pdf`). -/
def image_to_pdf (c : Codec) (secret key : Option String) (hexs : Nat → String)
    (files : List Upload) : Outcome :=
  if check_secret secret key then
    if files.isEmpty then
      ⟨.error 400 "No files uploaded. Use field name \"file\".", []⟩
    else
      match readAndVerify c files with
      | .error (bad, evs) =>
        ⟨.error 400 ("Uploaded file " ++ bad ++ " is not a valid image."), evs⟩
      | .ok (bufs, evs) =>
        match c.img2pdfConvert bufs with
        | .error e => ⟨.error 500 ("Failed to convert image to pdf: " ++ e), evs⟩
        | .ok pdfBytes =>
          let out_name := unique_filename "converted" "pdf" (hexs 0)
          ⟨.fileResult ("/outputs/" ++ out_name) out_name,
           evs ++ [Ev.write out_name pdfBytes]⟩
  else ⟨.error 401 "Unauthorized", []⟩

/-- `scan_to_pdf` of `src/main.py`: delegates to `image_to_pdf` unchanged. -/
def scan_to_pdf (c : Codec) (secret key : Option String) (hexs : Nat → String)
    (files : List Upload) : Outcome :=
  image_to_pdf c secret key hexs files

/-- Python `str.lower()` on the ASCII format strings involved, rendered as a
structural map over the characters so it evaluates on closed inputs. -/
def toLowerStr (s : String) : String :=
  ⟨s.data.map Char.toLower⟩

/-- Python `str.strip()`: drop leading and trailing whitespace, rendered
structurally over the characters so it evaluates on closed inputs. -/
def trimStr (s : String) : String :=
  ⟨((s.data.dropWhile Char.isWhitespace).reverse.dropWhile Char.isWhitespace).reverse⟩

/-- `target_format.lower().strip()` of `image_to_image`. -/
def normTarget (target_format : String) : String :=
  trimStr (toLowerStr target_format)

/-- The accepted target formats of `image_to_image`. -/
def allowedFormats : List String := ["png", "jpeg", "jpg", "webp"]

/-- `out_ext = 'jpg' if target in ('jpg', 'jpeg') else target`. -/
def extOf (target : String) : String :=
  if target = "jpg" ∨ target = "jpeg" then "jpg" else target

/-- `format='JPEG' if out_ext == 'jpg' else out_ext.upper()`. -/
def fmtOf (out_ext : String) : String :=
  if out_ext = "jpg" then "JPEG" else out_ext.toUpper

/-- `image_to_image` of `src/main.py` (`POST /convert/image-to-image`). -/
def image_to_image (c : Codec) (secret key : Option String) (hexs : Nat → String)
    (file : Upload) (target_format : String) : Outcome :=
  if check_secret secret key then
    match c.decodeImage file.content with
    | none => ⟨.error 400 "Invalid image file", [Ev.read file.content]⟩
    | some raw =>
      let img := c.toRGB raw
      let target := normTarget target_format
      if allowedFormats.contains target then
        let out_ext := extOf target
        let out_name := unique_filename "converted_img" out_ext (hexs 0)
        ⟨.fileResult ("/outputs/" ++ out_name) out_name,
         [Ev.read file.content, Ev.write out_name (c.encodeImage img (fmtOf out_ext))]⟩
      else
        ⟨.error 400 "Unsupported target_format. Use png, jpeg, webp", [Ev.read file.content]⟩
  else ⟨.error 401 "Unauthorized", []⟩

/-- `image_compress` of `src/main.py` (`POST /convert/image-compress`). -/
def image_compress (c : Codec) (secret key : Option String) (hexs : Nat → String)
    (file : Upload) (quality : Int) : Outcome :=
  if check_secret secret key then
    match c.decodeImage file.content with
    | none => ⟨.error 400 "Invalid image file", [Ev.read file.content]⟩
    | some raw =>
      let img := c.toRGB raw
      if quality < 5 ∨ quality > 95 then
        ⟨.error 400 "Quality must be between 5 and 95", [Ev.read file.content]⟩
      else
        let out_name := unique_filename "compressed" "jpg" (hexs 0)
        ⟨.compressResult ("/outputs/" ++ out_name) out_name quality,
         [Ev.read file.content, Ev.write out_name (c.encodeJpegQ img quality)]⟩
  else ⟨.error 401 "Unauthorized", []⟩

/-- The PNG bytes of one rasterized page: `page.get_pixmap(matrix=fitz.Matrix(2, 2))
.tobytes('png')` when it succeeds (padded with `[]` in the unreachable branch). -/
def pixBytes (c : Codec) (p : Page) : Bytes :=
  match c.pixmapPng p 2 2 with
  | .ok b => b
  | .error _ => []

/-- The page loop of `pdf_to_images`, starting at 0-based page index `i`:
rasterizes each page at `Matrix(2, 2)` and writes one PNG artifact per page;
an exception raised by the rasterizer aborts the loop (uncaught in the
source), keeping the writes already performed. -/
def pagesLoop (c : Codec) (hexs : Nat → String) (i : Nat) :
    List Page → Except (List Ev) (List String × List Ev)
  | [] => .ok ([], [])
  | p :: rest =>
    match c.pixmapPng p 2 2 with
    | .error _ => .error []
    | .ok png =>
      let out_name := unique_filename ("page_" ++ toString (i + 1)) "png" (hexs i)
      match pagesLoop c hexs (i + 1) rest with
      | .ok (urls, evs) =>
        .ok (("/outputs/" ++ out_name) :: urls, Ev.write out_name png :: evs)
      | .error evs => .error (Ev.write out_name png :: evs)

/-- `pdf_to_images` of `src/main.py` (`POST /convert/pdf-to-images`).  An
uncaught exception inside the page loop surfaces as the framework's 500. -/
def pdf_to_images (c : Codec) (secret key : Option String) (hexs : Nat → String)
    (file : Upload) : Outcome :=
  if check_secret secret key then
    match c.fitzOpen file.content with
    | none => ⟨.error 400 "Invalid PDF file", [Ev.read file.content]⟩
    | some pages =>
      match pagesLoop c hexs 0 pages with
      | .ok (out_files, evs) =>
        ⟨.filesResult out_files out_files.length, Ev.read file.content :: evs⟩
      | .error evs => ⟨.error 500 "Internal Server Error", Ev.read file.content :: evs⟩
  else ⟨.error 401 "Unauthorized", []⟩

/-- The append loop of `pdf_merge`: reads each upload and parses it with
PyPDF2 inside the shared `try`; the first parse failure aborts with the
library's message, keeping the reads performed so far. -/
def mergeLoop (c : Codec) : List Upload → Except (String × List Ev) (List Page × List Ev)
  | [] => .ok ([], [])
  | f :: rest =>
    match c.pypdfRead f.content with
    | .error e => .error (e, [Ev.read f.content])
    | .ok pages =>
      match mergeLoop c rest with
      | .ok (ps, evs) => .ok (pages ++ ps, Ev.read f.content :: evs)
      | .error (e, evs) => .error (e, Ev.read f.content :: evs)

/-- `pdf_merge` of `src/main.py` (`POST /convert/pdf-merge`).  Any exception
inside the `try` (including a parse failure of an input) is reported as a 500
`Merge error`. -/
def pdf_merge (c : Codec) (secret key : Option String) (hexs : Nat → String)
    (files : List Upload) : Outcome :=
  if check_secret secret key then
    if files.length < 2 then
      ⟨.error 400 "Upload two or more PDF files to merge", []⟩
    else
      match mergeLoop c files with
      | .error (e, evs) => ⟨.error 500 ("Merge error: " ++ e), evs⟩
      | .ok (allPages, evs) =>
        let out_name := unique_filename "merged" "pdf" (hexs 0)
        ⟨.fileResult ("/outputs/" ++ out_name) out_name,
         evs ++ [Ev.write out_name (c.writePdf allPages)]⟩
  else ⟨.error 401 "Unauthorized", []⟩

/-- The page loop of `pdf_split`, starting at 0-based page index `i`: writes
one single-page PDF artifact per page. -/
def splitLoop (c : Codec) (hexs : Nat → String) (i : Nat) :
    List Page → List String × List Ev
  | [] => ([], [])
  | p :: rest =>
    let out_name := unique_filename ("split_" ++ toString (i + 1)) "pdf" (hexs i)
    let (urls, evs) := splitLoop c hexs (i + 1) rest
    (("/outputs/" ++ out_name) :: urls, Ev.write out_name (c.writePdf [p]) :: evs)

/-- `pdf_split` of `src/main.py` (`POST /convert/pdf-split`). -/
def pdf_split (c : Codec) (secret key : Option String) (hexs : Nat → String)
    (file : Upload) : Outcome :=
  if check_secret secret key then
    match c.pypdfRead file.content with
    | .error _ => ⟨.error 400 "Invalid PDF file", [Ev.read file.content]⟩
    | .ok pages =>
      let (out_files, evs) := splitLoop c hexs 0 pages
      ⟨.filesResult out_files out_files.length, Ev.read file.content :: evs⟩
  else ⟨.error 401 "Unauthorized", []⟩

/-- The deletion loop of `cleanup`: attempts `os.remove` on each directory
entry; a raised exception is swallowed (`except Exception: pass`), a success
increments `removed`. -/
def cleanupLoop (removeOk : String → Bool) : List String → Nat × List Ev
  | [] => (0, [])
  | n :: rest =>
    let ok := removeOk n
    let (cnt, evs) := cleanupLoop removeOk rest
    ((if ok then 1 else 0) + cnt, Ev.tryRemove n ok :: evs)

/-- `cleanup` of `src/main.py` (`POST /cleanup`); `entries` is `os.listdir`
of the output directory and `removeOk` tells whether `os.remove` succeeds. -/
def cleanup (secret key : Option String) (entries : List String)
    (removeOk : String → Bool) : Outcome :=
  if check_secret secret key then
    let (removed, evs) := cleanupLoop removeOk entries
    ⟨.cleanupResult removed, evs⟩
  else ⟨.error 401 "Unauthorized", []⟩

/-- A concrete codec used to evaluate the handlers on closed inputs: empty
byte buffers fail to parse or verify, anything else succeeds. -/
def cEx : Codec where
  verifyImage := fun b => !b.isEmpty
  decodeImage := fun b => if b.isEmpty then none else some 1
  toRGB := fun i => i
  encodeImage := fun i _ => [i]
  encodeJpegQ := fun i _ => [i]
  img2pdfConvert := fun bs => .ok bs.flatten
  fitzOpen := fun b => if b.isEmpty then none else some [1]
  pixmapPng := fun p a b => .ok [p, a, b]
  pypdfRead := fun b => if b.isEmpty then .error "EOF marker not found" else .ok [1]
  writePdf := fun ps => ps

/-- A concrete codec whose rasterizer raises on page 2 while page 1 succeeds,
evaluating the mid-loop failure behaviour of `pdf_to_images`. -/
def cFail : Codec :=
  { cEx with
    fitzOpen := fun _ => some [1, 2]
    pixmapPng := fun p a b => if p = 2 then .error "boom" else .ok [p, a, b] }

/-- A concrete uuid4-hex supply for closed evaluations. -/
def hexEx : Nat → String := fun i => "h" ++ toString i

/-- C7: for every input (codec behaviour, auth key, uploaded files and hex
supply), the scan-to-pdf operation behaves identically to the image-to-pdf
operation: same response and same effect trace. -/
theorem scan_to_pdf_alias (c : Codec) (secret key : Option String)
    (hexs : Nat → String) (files : List Upload) :
    scan_to_pdf c secret key hexs files = image_to_pdf c secret key hexs files := rfl

/-- C1 counterexample: with the configured secret equal to the empty string
and no supplied key, the guard passes (and a mutating endpoint such as
cleanup runs), although a secret is configured (`some "" ≠ none`) and the
supplied key does not equal it — contradicting the claimed iff. -/
theorem check_secret_empty_secret_passes :
    check_secret (some "") none = true ∧
    (some "" : Option String) ≠ none ∧
    (none : Option String) ≠ some "" ∧
    cleanup (some "") none ["a.pdf"] (fun _ => true) =
      ⟨.cleanupResult 1, [Ev.tryRemove "a.pdf" true]⟩ := by
  refine ⟨rfl, by simp, by simp, rfl⟩

/-- C1 (amended): the Auth Guard passes iff no secret is configured, the
configured secret is the empty string, or the supplied key exactly equals the
configured secret; when it fails, every mutating endpoint returns the 401
Unauthorized error with an empty effect trace, i.e. before any upload content
is read. -/
theorem auth_guard_spec :
    (∀ s k, check_secret s k = true ↔ (s = none ∨ s = some "" ∨ k = s)) ∧
    (∀ c s k hexs files, check_secret s k = false →
        image_to_pdf c s k hexs files = ⟨.error 401 "Unauthorized", []⟩) ∧
    (∀ c s k hexs files, check_secret s k = false →
        scan_to_pdf c s k hexs files = ⟨.error 401 "Unauthorized", []⟩) ∧
    (∀ c s k hexs file tf, check_secret s k = false →
        image_to_image c s k hexs file tf = ⟨.error 401 "Unauthorized", []⟩) ∧
    (∀ c s k hexs file q, check_secret s k = false →
        image_compress c s k hexs file q = ⟨.error 401 "Unauthorized", []⟩) ∧
    (∀ c s k hexs file, check_secret s k = false →
        pdf_to_images c s k hexs file = ⟨.error 401 "Unauthorized", []⟩) ∧
    (∀ c s k hexs files, check_secret s k = false →
        pdf_merge c s k hexs files = ⟨.error 401 "Unauthorized", []⟩) ∧
    (∀ c s k hexs file, check_secret s k = false →
        pdf_split c s k hexs file = ⟨.error 401 "Unauthorized", []⟩) ∧
    (∀ s k entries removeOk, check_secret s k = false →
        cleanup s k entries removeOk = ⟨.error 401 "Unauthorized", []⟩) := by
  refine ⟨?_, ?_, ?_, ?_, ?_, ?_, ?_, ?_, ?_⟩
  · intro s k
    rcases s with _ | s'
    · simp [check_secret]
    · rcases k with _ | k'
      · by_cases hs : s' = "" <;> simp [check_secret, hs]
      · by_cases hs : s' = "" <;> by_cases hk : k' = "" <;>
          by_cases he : k' = s' <;> simp_all [check_secret]
  · intro c s k hexs files h; simp [image_to_pdf, h]
  · intro c s k hexs files h; simp [scan_to_pdf, image_to_pdf, h]
  · intro c s k hexs file tf h; simp [image_to_image, h]
  · intro c s k hexs file q h; simp [image_compress, h]
  · intro c s k hexs file h; simp [pdf_to_images, h]
  · intro c s k hexs files h; simp [pdf_merge, h]
  · intro c s k hexs file h; simp [pdf_split, h]
  · intro s k entries removeOk h; simp [cleanup, h]

/-- C1 witness: a request with a configured non-empty secret and no supplied
key is rejected with 401 and an empty effect trace. -/
theorem auth_guard_spec_witness :
    image_compress cEx (some "sek") none hexEx ⟨"f", [1]⟩ 50 =
      ⟨.error 401 "Unauthorized", []⟩ :=
  auth_guard_spec.2.2.2.2.1 cEx (some "sek") none hexEx ⟨"f", [1]⟩ 50 rfl

/-- C2 counterexample: with quality 96 and an upload that does not decode as
an image, Image Compress fails with the `Invalid image file` error — not with
the `InvalidParameter` quality-range error — because the source decodes the
image before checking the quality range. -/
theorem image_compress_decode_before_range :
    image_compress cEx none none hexEx ⟨"f.txt", []⟩ 96 =
      ⟨.error 400 "Invalid image file", [Ev.read []]⟩ ∧
    ("Invalid image file" : String) ≠ "Quality must be between 5 and 95" := by
  exact ⟨rfl, by decide⟩

/-- C2 (amended): for an authorised request whose upload decodes as an image,
every quality q with 5 ≤ q ≤ 95 is accepted (a JPEG artifact is written), and
every q outside the range fails with the `InvalidParameter` quality error and
writes no file; the range check runs after image decoding but before any file
write. -/
theorem image_compress_quality_range (c : Codec) (s k : Option String)
    (hexs : Nat → String) (file : Upload) (q : Int) (raw : Img)
    (hauth : check_secret s k = true)
    (hdec : c.decodeImage file.content = some raw) :
    ((5 ≤ q ∧ q ≤ 95) →
       image_compress c s k hexs file q =
         ⟨.compressResult ("/outputs/" ++ unique_filename "compressed" "jpg" (hexs 0))
            (unique_filename "compressed" "jpg" (hexs 0)) q,
          [Ev.read file.content,
           Ev.write (unique_filename "compressed" "jpg" (hexs 0))
             (c.encodeJpegQ (c.toRGB raw) q)]⟩) ∧
    ((q < 5 ∨ q > 95) →
       image_compress c s k hexs file q =
         ⟨.error 400 "Quality must be between 5 and 95", [Ev.read file.content]⟩ ∧
       writes (image_compress c s k hexs file q).events = []) := by
  constructor
  · rintro ⟨h1, h2⟩
    have hq : ¬(q < 5 ∨ q > 95) := by omega
    simp [image_compress, hauth, hdec, hq]
  · intro hq
    have heq : image_compress c s k hexs file q =
        ⟨.error 400 "Quality must be between 5 and 95", [Ev.read file.content]⟩ := by
      simp [image_compress, hauth, hdec, hq]
    exact ⟨heq, by rw [heq]; simp [writes]⟩

/-- C2 witness: quality 96 on a decodable image is rejected with the quality
error and no write. -/
theorem image_compress_quality_range_witness :
    image_compress cEx none none hexEx ⟨"f", [1]⟩ 96 =
      ⟨.error 400 "Quality must be between 5 and 95", [Ev.read [1]]⟩ ∧
    writes (image_compress cEx none none hexEx ⟨"f", [1]⟩ 96).events = [] :=
  (image_compress_quality_range cEx none none hexEx ⟨"f", [1]⟩ 96 1 rfl rfl).2
    (by decide)

/-- The cleanup loop deletes exactly the entries on which `os.remove`
succeeds and attempts every entry in order. -/
theorem cleanupLoop_spec (removeOk : String → Bool) (entries : List String) :
    cleanupLoop removeOk entries =
      (entries.countP removeOk, entries.map fun n => Ev.tryRemove n (removeOk n)) := by
  induction entries with
  | nil => simp [cleanupLoop]
  | cons n rest ih =>
    simp only [cleanupLoop, ih, List.countP_cons, List.map_cons]
    cases h : removeOk n <;> simp [h, Nat.add_comm]

/-- C9: for every authorised cleanup request, one deletion is attempted for
every entry of the output directory, per-entry failures are swallowed (the
response is still a success), and the `removed` field equals exactly the
number of entries whose deletion succeeded. -/
theorem cleanup_attempts_all (s k : Option String) (entries : List String)
    (removeOk : String → Bool) (hauth : check_secret s k = true) :
    cleanup s k entries removeOk =
      ⟨.cleanupResult (entries.countP removeOk),
       entries.map fun n => Ev.tryRemove n (removeOk n)⟩ := by
  simp [cleanup, hauth, cleanupLoop_spec]

/-- C9 witness: cleaning two entries where one deletion fails reports
`removed = 1` and an attempt for each entry. -/
theorem cleanup_attempts_all_witness :
    cleanup none none ["a", "b"] (fun n => n == "a") =
      ⟨.cleanupResult 1, [Ev.tryRemove "a" true, Ev.tryRemove "b" false]⟩ := by
  have h := cleanup_attempts_all none none ["a", "b"] (fun n => n == "a") rfl
  simpa using h

/-- The effect trace of a merge-loop result, successful or aborted. -/
def mergeEvents (r : Except (String × List Ev) (List Page × List Ev)) : List Ev :=
  match r with
  | .ok (_, evs) => evs
  | .error (_, evs) => evs

/-- The merge loop only reads uploads: its trace contains no artifact write,
whether it succeeds or aborts. -/
theorem mergeLoop_no_writes (c : Codec) (files : List Upload) :
    writes (mergeEvents (mergeLoop c files)) = [] := by
  induction files with
  | nil => simp [mergeLoop, mergeEvents, writes]
  | cons f rest ih =>
    simp only [mergeLoop]
    cases hr : c.pypdfRead f.content with
    | error e => simp [mergeEvents, writes]
    | ok pages =>
      cases hm : mergeLoop c rest with
      | ok x =>
        obtain ⟨ps, evs⟩ := x
        simp only [mergeEvents, writes, List.filterMap_cons]
        have := ih
        rw [hm] at this
        simpa [mergeEvents, writes] using this
      | error x =>
        obtain ⟨e, evs⟩ := x
        simp only [mergeEvents, writes, List.filterMap_cons]
        have := ih
        rw [hm] at this
        simpa [mergeEvents, writes] using this

/-- C3 counterexample: merging two uploads whose first byte buffer is not a
valid PDF fails with a 500 `Merge error`, not with the 400 `Invalid PDF file`
error the claim requires — `pdf_merge` parses inputs inside the merge step
instead of validating them first. -/
theorem pdf_merge_invalid_pdf_500 :
    pdf_merge cEx none none hexEx [⟨"a.pdf", []⟩, ⟨"b.pdf", [1]⟩] =
      ⟨.error 500 "Merge error: EOF marker not found", [Ev.read []]⟩ ∧
    (500 : Nat) ≠ 400 := by
  exact ⟨by decide, by decide⟩

/-- C3 (amended): PDF→Images and PDF Split validate their input as a PDF
before any conversion, failing with the 400 `Invalid PDF file` error and no
write; PDF Merge instead parses each input inside the merge step, and a parse
failure surfaces as a 500 `Merge error` with no artifact written. -/
theorem pdf_validation_before_convert :
    (∀ c s k hexs (u : Upload), check_secret s k = true →
        c.fitzOpen u.content = none →
        pdf_to_images c s k hexs u =
          ⟨.error 400 "Invalid PDF file", [Ev.read u.content]⟩) ∧
    (∀ c s k hexs (u : Upload) e, check_secret s k = true →
        c.pypdfRead u.content = .error e →
        pdf_split c s k hexs u =
          ⟨.error 400 "Invalid PDF file", [Ev.read u.content]⟩) ∧
    (∀ c s k hexs (files : List Upload) e evs, check_secret s k = true →
        ¬ files.length < 2 →
        mergeLoop c files = .error (e, evs) →
        pdf_merge c s k hexs files = ⟨.error 500 ("Merge error: " ++ e), evs⟩ ∧
        writes evs = []) := by
  refine ⟨?_, ?_, ?_⟩
  · intro c s k hexs u hauth hopen
    simp [pdf_to_images, hauth, hopen]
  · intro c s k hexs u e hauth hread
    simp [pdf_split, hauth, hread]
  · intro c s k hexs files e evs hauth hlen hloop
    refine ⟨by simp [pdf_merge, hauth, hlen, hloop], ?_⟩
    have h := mergeLoop_no_writes c files
    rw [hloop] at h
    simpa [mergeEvents] using h

/-- C3 witness: a non-PDF upload to PDF→Images is rejected with the 400
`Invalid PDF file` error after only the upload read. -/
theorem pdf_validation_before_convert_witness :
    pdf_to_images cEx none none hexEx ⟨"f.pdf", []⟩ =
      ⟨.error 400 "Invalid PDF file", [Ev.read []]⟩ :=
  pdf_validation_before_convert.1 cEx none none hexEx ⟨"f.pdf", []⟩ rfl rfl

/-- C4 counterexample: on a two-page PDF whose second page fails to
rasterize, the request aborts with a 500 error but the page-1 artifact has
already been written — a partial artifact remains, contradicting the claim. -/
theorem pdf_to_images_partial_artifact :
    pdf_to_images cFail none none hexEx ⟨"f.pdf", [9]⟩ =
      ⟨.error 500 "Internal Server Error",
       [Ev.read [9], Ev.write "page_1_h0.png" [1, 2, 2]]⟩ ∧
    writes (pdf_to_images cFail none none hexEx ⟨"f.pdf", [9]⟩).events =
      [("page_1_h0.png", [1, 2, 2])] := by
  exact ⟨by decide, by decide⟩

/-- A trace made only of writes projects to exactly those writes. -/
theorem writes_map_write {α : Type} (l : List α) (n : α → String) (d : α → Bytes) :
    writes (l.map fun x => Ev.write (n x) (d x)) = l.map fun x => (n x, d x) := by
  induction l with
  | nil => simp [writes]
  | cons a l ih =>
    simp only [writes, List.map_cons, List.filterMap_cons] at ih ⊢
    rw [ih]

/-- A leading upload read contributes no artifact write. -/
theorem writes_cons_read (b : Bytes) (l : List Ev) :
    writes (Ev.read b :: l) = writes l := by
  simp [writes, List.filterMap_cons]

/-- The page loop of `pdf_to_images` on pages that rasterize fine followed by
one that raises: it aborts, keeping exactly the writes of the good prefix. -/
theorem pagesLoop_aborts (c : Codec) (hexs : Nat → String) (e : String)
    (bad : Page) (rest : List Page)
    (hbad : c.pixmapPng bad 2 2 = .error e) :
    ∀ (good : List Page) (i : Nat),
      (∀ p ∈ good, c.pixmapPng p 2 2 = .ok (pixBytes c p)) →
      pagesLoop c hexs i (good ++ bad :: rest) =
        .error ((good.enumFrom i).map fun jp =>
          Ev.write (unique_filename ("page_" ++ toString (jp.1 + 1)) "png" (hexs jp.1))
            (pixBytes c jp.2)) := by
  intro good
  induction good with
  | nil =>
    intro i _
    simp [pagesLoop, hbad]
  | cons g gs ih =>
    intro i hgood
    have hg : c.pixmapPng g 2 2 = .ok (pixBytes c g) := hgood g (by simp)
    have hrest : ∀ p ∈ gs, c.pixmapPng p 2 2 = .ok (pixBytes c p) := by
      intro p hp; exact hgood p (by simp [hp])
    rw [List.cons_append]
    simp only [pagesLoop, hg, List.append_eq, ih (i + 1) hrest, List.enumFrom_cons,
      List.map_cons]

/-- The trace of a read-and-verify result, successful or aborted. -/
def rvEvents (r : Except (String × List Ev) (List Bytes × List Ev)) : List Ev :=
  match r with
  | .ok (_, evs) => evs
  | .error (_, evs) => evs

/-- The read-and-verify loop only reads uploads: no artifact write. -/
theorem readAndVerify_no_writes (c : Codec) (files : List Upload) :
    writes (rvEvents (readAndVerify c files)) = [] := by
  induction files with
  | nil => simp [readAndVerify, rvEvents, writes]
  | cons f rest ih =>
    simp only [readAndVerify]
    cases hv : c.verifyImage f.content with
    | false => simp [rvEvents, writes]
    | true =>
      simp only [if_true]
      cases hr : readAndVerify c rest with
      | ok x =>
        obtain ⟨bs, evs⟩ := x
        rw [hr] at ih
        simp only [rvEvents] at ih
        simpa [rvEvents, writes_cons_read] using ih
      | error x =>
        obtain ⟨nm, evs⟩ := x
        rw [hr] at ih
        simp only [rvEvents] at ih
        simpa [rvEvents, writes_cons_read] using ih

/-- C4 (amended): for every conversion operation, a failure in any step
aborts the whole request with an error response and no further artifact
write, while artifacts already written by the preceding steps of the same
request remain on disk (no rollback).  Covered failure branches: Image→PDF
and Scan→PDF missing files, verification failure, and `img2pdf` failure;
Image→Image decode and format failure; Image Compress decode and quality
failure; PDF→Images open failure and mid-loop rasterization failure (where
exactly the already-processed pages' artifacts stay written); PDF Merge
missing files and parse failure; PDF Split read failure.  All abort before
the first write — except the PDF→Images mid-loop case, which keeps the
good-prefix writes. -/
theorem failure_aborts_no_rollback :
    (∀ c s k hexs (files : List Upload), check_secret s k = true →
        files.isEmpty = true →
        image_to_pdf c s k hexs files =
          ⟨.error 400 "No files uploaded. Use field name \"file\".", []⟩) ∧
    (∀ c s k hexs (files : List Upload) nm evs, check_secret s k = true →
        files.isEmpty = false →
        readAndVerify c files = .error (nm, evs) →
        image_to_pdf c s k hexs files =
          ⟨.error 400 ("Uploaded file " ++ nm ++ " is not a valid image."), evs⟩ ∧
        writes ((image_to_pdf c s k hexs files).events) = []) ∧
    (∀ c s k hexs (files : List Upload) bufs evs e, check_secret s k = true →
        files.isEmpty = false →
        readAndVerify c files = .ok (bufs, evs) →
        c.img2pdfConvert bufs = .error e →
        image_to_pdf c s k hexs files =
          ⟨.error 500 ("Failed to convert image to pdf: " ++ e), evs⟩ ∧
        writes ((image_to_pdf c s k hexs files).events) = []) ∧
    (∀ c s k hexs (files : List Upload), check_secret s k = true →
        files.isEmpty = true →
        scan_to_pdf c s k hexs files =
          ⟨.error 400 "No files uploaded. Use field name \"file\".", []⟩) ∧
    (∀ c s k hexs (files : List Upload) nm evs, check_secret s k = true →
        files.isEmpty = false →
        readAndVerify c files = .error (nm, evs) →
        scan_to_pdf c s k hexs files =
          ⟨.error 400 ("Uploaded file " ++ nm ++ " is not a valid image."), evs⟩ ∧
        writes ((scan_to_pdf c s k hexs files).events) = []) ∧
    (∀ c s k hexs (files : List Upload) bufs evs e, check_secret s k = true →
        files.isEmpty = false →
        readAndVerify c files = .ok (bufs, evs) →
        c.img2pdfConvert bufs = .error e →
        scan_to_pdf c s k hexs files =
          ⟨.error 500 ("Failed to convert image to pdf: " ++ e), evs⟩ ∧
        writes ((scan_to_pdf c s k hexs files).events) = []) ∧
    (∀ c s k hexs (u : Upload) tf, check_secret s k = true →
        c.decodeImage u.content = none →
        image_to_image c s k hexs u tf =
          ⟨.error 400 "Invalid image file", [Ev.read u.content]⟩ ∧
        writes ((image_to_image c s k hexs u tf).events) = []) ∧
    (∀ c s k hexs (u : Upload) tf raw, check_secret s k = true →
        c.decodeImage u.content = some raw →
        normTarget tf ∉ allowedFormats →
        image_to_image c s k hexs u tf =
          ⟨.error 400 "Unsupported target_format. Use png, jpeg, webp",
           [Ev.read u.content]⟩ ∧
        writes ((image_to_image c s k hexs u tf).events) = []) ∧
    (∀ c s k hexs (u : Upload) (q : Int), check_secret s k = true →
        c.decodeImage u.content = none →
        image_compress c s k hexs u q =
          ⟨.error 400 "Invalid image file", [Ev.read u.content]⟩ ∧
        writes ((image_compress c s k hexs u q).events) = []) ∧
    (∀ c s k hexs (u : Upload) (q : Int) raw, check_secret s k = true →
        c.decodeImage u.content = some raw →
        (q < 5 ∨ q > 95) →
        image_compress c s k hexs u q =
          ⟨.error 400 "Quality must be between 5 and 95", [Ev.read u.content]⟩ ∧
        writes ((image_compress c s k hexs u q).events) = []) ∧
    (∀ c s k hexs (u : Upload), check_secret s k = true →
        c.fitzOpen u.content = none →
        pdf_to_images c s k hexs u =
          ⟨.error 400 "Invalid PDF file", [Ev.read u.content]⟩ ∧
        writes ((pdf_to_images c s k hexs u).events) = []) ∧
    (∀ c s k hexs (u : Upload) (good : List Page) (bad : Page)
        (rest : List Page) e, check_secret s k = true →
        c.fitzOpen u.content = some (good ++ bad :: rest) →
        (∀ p ∈ good, c.pixmapPng p 2 2 = .ok (pixBytes c p)) →
        c.pixmapPng bad 2 2 = .error e →
        (pdf_to_images c s k hexs u).response = .error 500 "Internal Server Error" ∧
        writes (pdf_to_images c s k hexs u).events =
          (good.enumFrom 0).map (fun jp =>
            (unique_filename ("page_" ++ toString (jp.1 + 1)) "png" (hexs jp.1),
             pixBytes c jp.2)) ∧
        (writes (pdf_to_images c s k hexs u).events).length = good.length) ∧
    (∀ c s k hexs (files : List Upload), check_secret s k = true →
        files.length < 2 →
        pdf_merge c s k hexs files =
          ⟨.error 400 "Upload two or more PDF files to merge", []⟩) ∧
    (∀ c s k hexs (files : List Upload) e evs, check_secret s k = true →
        ¬ files.length < 2 →
        mergeLoop c files = .error (e, evs) →
        pdf_merge c s k hexs files = ⟨.error 500 ("Merge error: " ++ e), evs⟩ ∧
        writes ((pdf_merge c s k hexs files).events) = []) ∧
    (∀ c s k hexs (u : Upload) e, check_secret s k = true →
        c.pypdfRead u.content = .error e →
        pdf_split c s k hexs u =
          ⟨.error 400 "Invalid PDF file", [Ev.read u.content]⟩ ∧
        writes ((pdf_split c s k hexs u).events) = []) := by
  refine ⟨?_, ?_, ?_, ?_, ?_, ?_, ?_, ?_, ?_, ?_, ?_, ?_, ?_, ?_, ?_⟩
  · intro c s k hexs files hck hfe
    simp [image_to_pdf, hck, hfe]
  · intro c s k hexs files nm evs hck hfe hrv
    have hnw := readAndVerify_no_writes c files
    rw [hrv] at hnw
    simp only [rvEvents] at hnw
    have heq : image_to_pdf c s k hexs files =
        ⟨.error 400 ("Uploaded file " ++ nm ++ " is not a valid image."), evs⟩ := by
      simp [image_to_pdf, hck, hfe, hrv]
    exact ⟨heq, by rw [heq]; exact hnw⟩
  · intro c s k hexs files bufs evs e hck hfe hrv hcv
    have hnw := readAndVerify_no_writes c files
    rw [hrv] at hnw
    simp only [rvEvents] at hnw
    have heq : image_to_pdf c s k hexs files =
        ⟨.error 500 ("Failed to convert image to pdf: " ++ e), evs⟩ := by
      simp [image_to_pdf, hck, hfe, hrv, hcv]
    exact ⟨heq, by rw [heq]; exact hnw⟩
  · intro c s k hexs files hck hfe
    simp [scan_to_pdf, image_to_pdf, hck, hfe]
  · intro c s k hexs files nm evs hck hfe hrv
    have hnw := readAndVerify_no_writes c files
    rw [hrv] at hnw
    simp only [rvEvents] at hnw
    have heq : scan_to_pdf c s k hexs files =
        ⟨.error 400 ("Uploaded file " ++ nm ++ " is not a valid image."), evs⟩ := by
      simp [scan_to_pdf, image_to_pdf, hck, hfe, hrv]
    exact ⟨heq, by rw [heq]; exact hnw⟩
  · intro c s k hexs files bufs evs e hck hfe hrv hcv
    have hnw := readAndVerify_no_writes c files
    rw [hrv] at hnw
    simp only [rvEvents] at hnw
    have heq : scan_to_pdf c s k hexs files =
        ⟨.error 500 ("Failed to convert image to pdf: " ++ e), evs⟩ := by
      simp [scan_to_pdf, image_to_pdf, hck, hfe, hrv, hcv]
    exact ⟨heq, by rw [heq]; exact hnw⟩
  · intro c s k hexs u tf hck hdec
    have heq : image_to_image c s k hexs u tf =
        ⟨.error 400 "Invalid image file", [Ev.read u.content]⟩ := by
      simp [image_to_image, hck, hdec]
    exact ⟨heq, by rw [heq]; simp [writes]⟩
  · intro c s k hexs u tf raw hck hdec hm
    have heq : image_to_image c s k hexs u tf =
        ⟨.error 400 "Unsupported target_format. Use png, jpeg, webp",
         [Ev.read u.content]⟩ := by
      simp [image_to_image, hck, hdec, hm]
    exact ⟨heq, by rw [heq]; simp [writes]⟩
  · intro c s k hexs u q hck hdec
    have heq : image_compress c s k hexs u q =
        ⟨.error 400 "Invalid image file", [Ev.read u.content]⟩ := by
      simp [image_compress, hck, hdec]
    exact ⟨heq, by rw [heq]; simp [writes]⟩
  · intro c s k hexs u q raw hck hdec hq
    have heq : image_compress c s k hexs u q =
        ⟨.error 400 "Quality must be between 5 and 95", [Ev.read u.content]⟩ := by
      simp [image_compress, hck, hdec, hq]
    exact ⟨heq, by rw [heq]; simp [writes]⟩
  · intro c s k hexs u hck hopen
    have heq : pdf_to_images c s k hexs u =
        ⟨.error 400 "Invalid PDF file", [Ev.read u.content]⟩ := by
      simp [pdf_to_images, hck, hopen]
    exact ⟨heq, by rw [heq]; simp [writes]⟩
  · intro c s k hexs u good bad rest e hck hopen hgood hbad
    have hloop := pagesLoop_aborts c hexs e bad rest hbad good 0 hgood
    have hout : pdf_to_images c s k hexs u =
        ⟨.error 500 "Internal Server Error",
         Ev.read u.content :: (good.enumFrom 0).map fun jp =>
           Ev.write (unique_filename ("page_" ++ toString (jp.1 + 1)) "png" (hexs jp.1))
             (pixBytes c jp.2)⟩ := by
      simp [pdf_to_images, hck, hopen, hloop]
    rw [hout]
    refine ⟨rfl, ?_, ?_⟩
    · rw [writes_cons_read, writes_map_write]
    · rw [writes_cons_read, writes_map_write, List.length_map, List.enumFrom_length]
  · intro c s k hexs files hck hlen
    simp [pdf_merge, hck, hlen]
  · intro c s k hexs files e evs hck hlen hml
    have hnw := mergeLoop_no_writes c files
    rw [hml] at hnw
    simp only [mergeEvents] at hnw
    have heq : pdf_merge c s k hexs files =
        ⟨.error 500 ("Merge error: " ++ e), evs⟩ := by
      simp [pdf_merge, hck, hlen, hml]
    exact ⟨heq, by rw [heq]; exact hnw⟩
  · intro c s k hexs u e hck hread
    have heq : pdf_split c s k hexs u =
        ⟨.error 400 "Invalid PDF file", [Ev.read u.content]⟩ := by
      simp [pdf_split, hck, hread]
    exact ⟨heq, by rw [heq]; simp [writes]⟩

/-- C4 witness: at the concrete two-page input whose second page fails to
rasterize, the request errors while the page-1 artifact remains written. -/
theorem failure_aborts_no_rollback_witness :
    (pdf_to_images cFail none none hexEx ⟨"g.pdf", [9]⟩).response =
      .error 500 "Internal Server Error" ∧
    writes (pdf_to_images cFail none none hexEx ⟨"g.pdf", [9]⟩).events =
      [("page_1_h0.png", [1, 2, 2])] ∧
    (writes (pdf_to_images cFail none none hexEx ⟨"g.pdf", [9]⟩).events).length = 1 := by
  have h := failure_aborts_no_rollback.2.2.2.2.2.2.2.2.2.2.2.1
    cFail none none hexEx ⟨"g.pdf", [9]⟩ [1] 2 [] "boom" rfl rfl
    (by intro p hp; rw [List.mem_singleton] at hp; subst hp; rfl) rfl
  exact ⟨h.1, by simpa using h.2.1, by simpa using h.2.2⟩

/-- A leading artifact write contributes itself to the writes of a trace. -/
theorem writes_cons_write (n : String) (d : Bytes) (l : List Ev) :
    writes (Ev.write n d :: l) = (n, d) :: writes l := by
  simp [writes, List.filterMap_cons]

/-- C5: for an authorised Image→Image request whose single upload decodes as
an image, the request succeeds iff the lowercased-and-trimmed target format
is one of png, jpeg, jpg, webp; otherwise it fails with the 400 unsupported
format error and writes no file; `jpg` and `jpeg` both select the JPEG
encoder, and the written bytes are the re-encoding of the image normalized
to 3-channel colour (`toRGB`) before encoding. -/
theorem image_to_image_format_spec (c : Codec) (s k : Option String)
    (hexs : Nat → String) (file : Upload) (tf : String) (raw : Img)
    (hauth : check_secret s k = true)
    (hdec : c.decodeImage file.content = some raw) :
    ((∃ url fn, (image_to_image c s k hexs file tf).response = .fileResult url fn) ↔
       allowedFormats.contains (normTarget tf) = true) ∧
    (allowedFormats.contains (normTarget tf) = true →
       image_to_image c s k hexs file tf =
         ⟨.fileResult
            ("/outputs/" ++ unique_filename "converted_img" (extOf (normTarget tf)) (hexs 0))
            (unique_filename "converted_img" (extOf (normTarget tf)) (hexs 0)),
          [Ev.read file.content,
           Ev.write (unique_filename "converted_img" (extOf (normTarget tf)) (hexs 0))
             (c.encodeImage (c.toRGB raw) (fmtOf (extOf (normTarget tf))))]⟩) ∧
    (allowedFormats.contains (normTarget tf) = false →
       image_to_image c s k hexs file tf =
         ⟨.error 400 "Unsupported target_format. Use png, jpeg, webp",
          [Ev.read file.content]⟩ ∧
       writes (image_to_image c s k hexs file tf).events = []) ∧
    ((normTarget tf = "jpg" ∨ normTarget tf = "jpeg") →
       fmtOf (extOf (normTarget tf)) = "JPEG") := by
  refine ⟨?_, ?_, ?_, ?_⟩
  · cases h : allowedFormats.contains (normTarget tf) with
    | true =>
      have hm : normTarget tf ∈ allowedFormats := by simpa using h
      refine iff_of_true ?_ rfl
      refine ⟨"/outputs/" ++ unique_filename "converted_img" (extOf (normTarget tf)) (hexs 0),
        unique_filename "converted_img" (extOf (normTarget tf)) (hexs 0), ?_⟩
      simp [image_to_image, hauth, hdec, hm]
    | false =>
      have hm : normTarget tf ∉ allowedFormats := by simpa using h
      refine iff_of_false ?_ (by simp)
      rintro ⟨url, fn, hr⟩
      simp [image_to_image, hauth, hdec, hm] at hr
  · intro h
    have hm : normTarget tf ∈ allowedFormats := by simpa using h
    simp [image_to_image, hauth, hdec, hm]
  · intro h
    have hm : normTarget tf ∉ allowedFormats := by simpa using h
    have heq : image_to_image c s k hexs file tf =
        ⟨.error 400 "Unsupported target_format. Use png, jpeg, webp",
         [Ev.read file.content]⟩ := by
      simp [image_to_image, hauth, hdec, hm]
    exact ⟨heq, by rw [heq]; simp [writes]⟩
  · rintro (h | h) <;> simp [extOf, fmtOf, h]

/-- C5 witness: converting a decodable image with target `" WebP "` succeeds,
writing one artifact encoded from the RGB-normalized image. -/
theorem image_to_image_format_spec_witness :
    image_to_image cEx none none hexEx ⟨"f", [1]⟩ " WebP " =
      ⟨.fileResult "/outputs/converted_img_h0.webp" "converted_img_h0.webp",
       [Ev.read [1], Ev.write "converted_img_h0.webp" [1]]⟩ := by
  have h := (image_to_image_format_spec cEx none none hexEx ⟨"f", [1]⟩ " WebP " 1
    rfl rfl).2.1 (by decide)
  exact h.trans (by decide)

/-- The page loop of `pdf_to_images` when every page rasterizes: one PNG URL
and one write per page, in page order. -/
theorem pagesLoop_ok (c : Codec) (hexs : Nat → String) :
    ∀ (pages : List Page) (i : Nat),
      (∀ p ∈ pages, c.pixmapPng p 2 2 = .ok (pixBytes c p)) →
      pagesLoop c hexs i pages =
        .ok ((pages.enumFrom i).map fun jp =>
               "/outputs/" ++ unique_filename ("page_" ++ toString (jp.1 + 1)) "png" (hexs jp.1),
             (pages.enumFrom i).map fun jp =>
               Ev.write (unique_filename ("page_" ++ toString (jp.1 + 1)) "png" (hexs jp.1))
                 (pixBytes c jp.2)) := by
  intro pages
  induction pages with
  | nil => intro i _; simp [pagesLoop]
  | cons p rest ih =>
    intro i hras
    have hp : c.pixmapPng p 2 2 = .ok (pixBytes c p) := hras p (by simp)
    have hrest : ∀ q ∈ rest, c.pixmapPng q 2 2 = .ok (pixBytes c q) := by
      intro q hq; exact hras q (by simp [hq])
    simp only [pagesLoop, hp, ih (i + 1) hrest, List.enumFrom_cons, List.map_cons]

/-- C6: for an authorised PDF→Images request on a PDF that opens with N pages
all of which rasterize, the response lists exactly N PNG references in page
order with `pageCount = N`, and one artifact per page is written with the
bytes of that page rasterized at the fixed `Matrix(2, 2)` (2x linear) scale;
a zero-page PDF yields the empty list with `pageCount = 0`, not an error. -/
theorem pdf_to_images_page_spec (c : Codec) (s k : Option String)
    (hexs : Nat → String) (u : Upload) (pages : List Page)
    (hauth : check_secret s k = true)
    (hopen : c.fitzOpen u.content = some pages)
    (hras : ∀ p ∈ pages, c.pixmapPng p 2 2 = .ok (pixBytes c p)) :
    pdf_to_images c s k hexs u =
      ⟨.filesResult
         ((pages.enumFrom 0).map fun jp =>
            "/outputs/" ++ unique_filename ("page_" ++ toString (jp.1 + 1)) "png" (hexs jp.1))
         pages.length,
       Ev.read u.content ::
         (pages.enumFrom 0).map fun jp =>
           Ev.write (unique_filename ("page_" ++ toString (jp.1 + 1)) "png" (hexs jp.1))
             (pixBytes c jp.2)⟩ ∧
    (pages = [] → pdf_to_images c s k hexs u = ⟨.filesResult [] 0, [Ev.read u.content]⟩) := by
  have hmain : pdf_to_images c s k hexs u =
      ⟨.filesResult
         ((pages.enumFrom 0).map fun jp =>
            "/outputs/" ++ unique_filename ("page_" ++ toString (jp.1 + 1)) "png" (hexs jp.1))
         pages.length,
       Ev.read u.content ::
         (pages.enumFrom 0).map fun jp =>
           Ev.write (unique_filename ("page_" ++ toString (jp.1 + 1)) "png" (hexs jp.1))
             (pixBytes c jp.2)⟩ := by
    simp [pdf_to_images, hauth, hopen, pagesLoop_ok c hexs pages 0 hras,
      List.enumFrom_length]
  refine ⟨hmain, ?_⟩
  intro hnil
  subst hnil
  simpa using hmain

/-- C6 witness: a one-page PDF yields exactly one PNG reference and one
write, with `pageCount = 1`. -/
theorem pdf_to_images_page_spec_witness :
    pdf_to_images cEx none none hexEx ⟨"f.pdf", [1]⟩ =
      ⟨.filesResult ["/outputs/page_1_h0.png"] 1,
       [Ev.read [1], Ev.write "page_1_h0.png" [1, 2, 2]]⟩ := by
  have h := (pdf_to_images_page_spec cEx none none hexEx ⟨"f.pdf", [1]⟩ [1]
    rfl rfl (by intro p hp; rw [List.mem_singleton] at hp; subst hp; rfl)).1
  exact h.trans (by decide)

/-- Every URL returned by a successful page loop is `/outputs/` ++ an
artifact name written by the same loop. -/
theorem pagesLoop_urls (c : Codec) (hexs : Nat → String) :
    ∀ (pages : List Page) (i : Nat) (urls : List String) (evs : List Ev),
      pagesLoop c hexs i pages = .ok (urls, evs) →
      ∀ f ∈ urls, ∃ nm d, f = "/outputs/" ++ nm ∧ (nm, d) ∈ writes evs := by
  intro pages
  induction pages with
  | nil =>
    intro i urls evs h f hf
    simp only [pagesLoop, Except.ok.injEq, Prod.mk.injEq] at h
    obtain ⟨h1, h2⟩ := h
    subst h1
    simp at hf
  | cons p rest ih =>
    intro i urls evs h f hf
    simp only [pagesLoop] at h
    cases hpx : c.pixmapPng p 2 2 with
    | error e => rw [hpx] at h; simp at h
    | ok png =>
      rw [hpx] at h
      cases hrec : pagesLoop c hexs (i + 1) rest with
      | error evs2 => rw [hrec] at h; simp at h
      | ok x =>
        obtain ⟨urls2, evs2⟩ := x
        rw [hrec] at h
        simp only [Except.ok.injEq, Prod.mk.injEq] at h
        obtain ⟨h1, h2⟩ := h
        subst h1
        subst h2
        rw [List.mem_cons] at hf
        cases hf with
        | inl hf =>
          exact ⟨unique_filename ("page_" ++ toString (i + 1)) "png" (hexs i), png, hf,
            by rw [writes_cons_write]; exact List.mem_cons_self _ _⟩
        | inr hf =>
          obtain ⟨nm, d, hfe, hmem⟩ := ih (i + 1) urls2 evs2 hrec f hf
          exact ⟨nm, d, hfe, by rw [writes_cons_write]; exact List.mem_cons_of_mem _ hmem⟩

/-- Every URL returned by the split loop is `/outputs/` ++ an artifact name
written by the same loop. -/
theorem splitLoop_urls (c : Codec) (hexs : Nat → String) :
    ∀ (pages : List Page) (i : Nat),
      ∀ f ∈ (splitLoop c hexs i pages).1,
        ∃ nm d, f = "/outputs/" ++ nm ∧ (nm, d) ∈ writes (splitLoop c hexs i pages).2 := by
  intro pages
  induction pages with
  | nil => intro i f hf; simp [splitLoop] at hf
  | cons p rest ih =>
    intro i f hf
    simp only [splitLoop, List.mem_cons] at hf
    cases hf with
    | inl hf =>
      refine ⟨unique_filename ("split_" ++ toString (i + 1)) "pdf" (hexs i),
        c.writePdf [p], hf, ?_⟩
      simp only [splitLoop, writes_cons_write]
      exact List.mem_cons_self _ _
    | inr hf =>
      obtain ⟨nm, d, hfe, hmem⟩ := ih (i + 1) f hf
      refine ⟨nm, d, hfe, ?_⟩
      simp only [splitLoop, writes_cons_write]
      exact List.mem_cons_of_mem _ hmem

/-- C10: in every success response of PDF→Images and PDF Split, `pageCount`
equals the length of the returned file list, and every element of that list
is `/outputs/` followed by an artifact name written by the same request. -/
theorem files_reference_outputs :
    (∀ c s k hexs (u : Upload) fs n,
        (pdf_to_images c s k hexs u).response = .filesResult fs n →
        n = fs.length ∧
        ∀ f ∈ fs, ∃ nm d, f = "/outputs/" ++ nm ∧
          (nm, d) ∈ writes (pdf_to_images c s k hexs u).events) ∧
    (∀ c s k hexs (u : Upload) fs n,
        (pdf_split c s k hexs u).response = .filesResult fs n →
        n = fs.length ∧
        ∀ f ∈ fs, ∃ nm d, f = "/outputs/" ++ nm ∧
          (nm, d) ∈ writes (pdf_split c s k hexs u).events) := by
  constructor
  · intro c s k hexs u fs n hresp
    cases hck : check_secret s k with
    | false =>
      have hout : pdf_to_images c s k hexs u = ⟨.error 401 "Unauthorized", []⟩ := by
        simp [pdf_to_images, hck]
      rw [hout] at hresp
      simp at hresp
    | true =>
      cases hopen : c.fitzOpen u.content with
      | none =>
        have hout : pdf_to_images c s k hexs u =
            ⟨.error 400 "Invalid PDF file", [Ev.read u.content]⟩ := by
          simp [pdf_to_images, hck, hopen]
        rw [hout] at hresp
        simp at hresp
      | some pages =>
        cases hloop : pagesLoop c hexs 0 pages with
        | error evs =>
          have hout : pdf_to_images c s k hexs u =
              ⟨.error 500 "Internal Server Error", Ev.read u.content :: evs⟩ := by
            simp [pdf_to_images, hck, hopen, hloop]
          rw [hout] at hresp
          simp at hresp
        | ok x =>
          obtain ⟨urls, evs⟩ := x
          have hout : pdf_to_images c s k hexs u =
              ⟨.filesResult urls urls.length, Ev.read u.content :: evs⟩ := by
            simp [pdf_to_images, hck, hopen, hloop]
          rw [hout] at hresp
          simp only [Response.filesResult.injEq] at hresp
          obtain ⟨h1, h2⟩ := hresp
          subst h1
          rw [hout]
          refine ⟨h2.symm, ?_⟩
          intro f hf
          obtain ⟨nm, d, hfe, hmem⟩ := pagesLoop_urls c hexs pages 0 urls evs hloop f hf
          refine ⟨nm, d, hfe, ?_⟩
          show (nm, d) ∈ writes (Ev.read u.content :: evs)
          rw [writes_cons_read]
          exact hmem
  · intro c s k hexs u fs n hresp
    cases hck : check_secret s k with
    | false =>
      have hout : pdf_split c s k hexs u = ⟨.error 401 "Unauthorized", []⟩ := by
        simp [pdf_split, hck]
      rw [hout] at hresp
      simp at hresp
    | true =>
      cases hread : c.pypdfRead u.content with
      | error e =>
        have hout : pdf_split c s k hexs u =
            ⟨.error 400 "Invalid PDF file", [Ev.read u.content]⟩ := by
          simp [pdf_split, hck, hread]
        rw [hout] at hresp
        simp at hresp
      | ok pages =>
        have hout : pdf_split c s k hexs u =
            ⟨.filesResult (splitLoop c hexs 0 pages).1 (splitLoop c hexs 0 pages).1.length,
             Ev.read u.content :: (splitLoop c hexs 0 pages).2⟩ := by
          simp [pdf_split, hck, hread]
        rw [hout] at hresp
        simp only [Response.filesResult.injEq] at hresp
        obtain ⟨h1, h2⟩ := hresp
        subst h1
        rw [hout]
        refine ⟨h2.symm, ?_⟩
        intro f hf
        obtain ⟨nm, d, hfe, hmem⟩ := splitLoop_urls c hexs pages 0 f hf
        refine ⟨nm, d, hfe, ?_⟩
        show (nm, d) ∈ writes (Ev.read u.content :: (splitLoop c hexs 0 pages).2)
        rw [writes_cons_read]
        exact hmem

/-- C10 witness: the one-page split response has `pageCount` 1 = length and
its single reference points at the written artifact under `/outputs/`. -/
theorem files_reference_outputs_witness :
    (1 : Nat) = (["/outputs/split_1_h0.pdf"] : List String).length ∧
    ∀ f ∈ (["/outputs/split_1_h0.pdf"] : List String),
      ∃ nm d, f = "/outputs/" ++ nm ∧
        (nm, d) ∈ writes (pdf_split cEx none none hexEx ⟨"f.pdf", [1]⟩).events :=
  files_reference_outputs.2 cEx none none hexEx ⟨"f.pdf", [1]⟩
    ["/outputs/split_1_h0.pdf"] 1 (by decide)

/-- The artifact writes distribute over trace concatenation. -/
theorem writes_append (a b : List Ev) : writes (a ++ b) = writes a ++ writes b := by
  simp [writes, List.filterMap_append]

/-- A leading artifact write contributes its name to the written names. -/
theorem writeNames_cons_write (n : String) (d : Bytes) (l : List Ev) :
    writeNames (Ev.write n d :: l) = n :: writeNames l := by
  simp [writeNames, writes_cons_write]

/-- A leading upload read contributes no written name. -/
theorem writeNames_cons_read (b : Bytes) (l : List Ev) :
    writeNames (Ev.read b :: l) = writeNames l := by
  simp [writeNames, writes_cons_read]

/-- Deletion attempts are not artifact writes. -/
theorem writes_map_tryRemove (l : List String) (ok : String → Bool) :
    writes (l.map fun n => Ev.tryRemove n (ok n)) = [] := by
  induction l with
  | nil => simp [writes]
  | cons n rest ih =>
    simp only [writes, List.map_cons, List.filterMap_cons] at ih ⊢
    exact ih

/-- Replacing the client-declared filename of an upload; contents unchanged. -/
def rename (g : String → String) (u : Upload) : Upload :=
  ⟨g u.filename, u.content⟩

/-- Renaming uploads only changes which filename a verification failure
reports; the read bytes and the collected buffers are unchanged. -/
theorem readAndVerify_rename (c : Codec) (g : String → String) :
    ∀ files : List Upload,
      readAndVerify c (files.map (rename g)) =
        match readAndVerify c files with
        | .ok x => .ok x
        | .error (n, evs) => .error (g n, evs) := by
  intro files
  induction files with
  | nil => simp [readAndVerify]
  | cons f rest ih =>
    simp only [List.map_cons, readAndVerify, rename]
    cases hv : c.verifyImage f.content with
    | false => simp
    | true =>
      simp only [if_true]
      rw [ih]
      cases hr : readAndVerify c rest with
      | ok x => obtain ⟨bs, evs⟩ := x; simp
      | error x => obtain ⟨nm, evs⟩ := x; simp

/-- Renaming uploads does not change the merge loop at all. -/
theorem mergeLoop_rename (c : Codec) (g : String → String) :
    ∀ files : List Upload, mergeLoop c (files.map (rename g)) = mergeLoop c files := by
  intro files
  induction files with
  | nil => rfl
  | cons f rest ih =>
    simp only [List.map_cons, mergeLoop, rename]
    rw [ih]

/-- The artifact name written for 0-based page index `j` by PDF→Images. -/
def pageName (hexs : Nat → String) (j : Nat) : String :=
  unique_filename ("page_" ++ toString (j + 1)) "png" (hexs j)

/-- The artifact name written for 0-based page index `j` by PDF Split. -/
def splitName (hexs : Nat → String) (j : Nat) : String :=
  unique_filename ("split_" ++ toString (j + 1)) "pdf" (hexs j)

/-- The trace of a page-loop result, successful or aborted. -/
def plEvents (r : Except (List Ev) (List String × List Ev)) : List Ev :=
  match r with
  | .ok (_, evs) => evs
  | .error evs => evs

/-- Whether it completes or aborts, the page loop writes names
`page_<j+1>_<hex j>.png` for consecutive 0-based indices `j` from `i`. -/
theorem pagesLoop_names (c : Codec) (hexs : Nat → String) :
    ∀ (pages : List Page) (i : Nat), ∃ N,
      writeNames (plEvents (pagesLoop c hexs i pages)) =
        (List.range' i N).map (pageName hexs) := by
  intro pages
  induction pages with
  | nil => intro i; exact ⟨0, by simp [pagesLoop, plEvents, writeNames, writes]⟩
  | cons p rest ih =>
    intro i
    cases hpx : c.pixmapPng p 2 2 with
    | error e =>
      exact ⟨0, by simp [pagesLoop, hpx, plEvents, writeNames, writes]⟩
    | ok png =>
      obtain ⟨N, hN⟩ := ih (i + 1)
      refine ⟨N + 1, ?_⟩
      rw [List.range'_succ, List.map_cons]
      simp only [pagesLoop, hpx]
      cases hr : pagesLoop c hexs (i + 1) rest with
      | ok x =>
        obtain ⟨urls, evs⟩ := x
        rw [hr] at hN
        simp only [plEvents] at hN
        simp [plEvents, writeNames_cons_write, hN, pageName]
      | error evs =>
        rw [hr] at hN
        simp only [plEvents] at hN
        simp [plEvents, writeNames_cons_write, hN, pageName]

/-- The split loop writes names `split_<j+1>_<hex j>.pdf` for consecutive
0-based indices `j` from `i`, one per page. -/
theorem splitLoop_names (c : Codec) (hexs : Nat → String) :
    ∀ (pages : List Page) (i : Nat),
      writeNames (splitLoop c hexs i pages).2 =
        (List.range' i pages.length).map (splitName hexs) := by
  intro pages
  induction pages with
  | nil => intro i; simp [splitLoop, writeNames, writes]
  | cons p rest ih =>
    intro i
    simp only [splitLoop, List.length_cons]
    rw [List.range'_succ, List.map_cons]
    simp [writeNames_cons_write, ih (i + 1), splitName]

/-- Every name written by `image_to_pdf` is the generated `converted` name. -/
theorem names_image_to_pdf (c : Codec) (s k : Option String) (hexs : Nat → String)
    (files : List Upload) :
    writeNames ((image_to_pdf c s k hexs files).events) = [] ∨
    writeNames ((image_to_pdf c s k hexs files).events) =
      [unique_filename "converted" "pdf" (hexs 0)] := by
  cases hck : check_secret s k with
  | false => left; simp [image_to_pdf, hck, writeNames, writes]
  | true =>
    cases hfe : files.isEmpty with
    | true => left; simp [image_to_pdf, hck, hfe, writeNames, writes]
    | false =>
      have hnw := readAndVerify_no_writes c files
      cases hrv : readAndVerify c files with
      | error x =>
        obtain ⟨nm, evs⟩ := x
        rw [hrv] at hnw
        simp only [rvEvents] at hnw
        left
        simp [image_to_pdf, hck, hfe, hrv, writeNames, hnw]
      | ok x =>
        obtain ⟨bufs, evs⟩ := x
        rw [hrv] at hnw
        simp only [rvEvents] at hnw
        cases hcv : c.img2pdfConvert bufs with
        | error e =>
          left
          simp [image_to_pdf, hck, hfe, hrv, hcv, writeNames, hnw]
        | ok pdf =>
          right
          have hev : (image_to_pdf c s k hexs files).events =
              evs ++ [Ev.write (unique_filename "converted" "pdf" (hexs 0)) pdf] := by
            simp [image_to_pdf, hck, hfe, hrv, hcv]
          rw [hev]
          simp only [writeNames, writes_append, hnw]
          simp [writes]

/-- Every name written by `image_to_image` is a generated `converted_img`
name. -/
theorem names_image_to_image (c : Codec) (s k : Option String) (hexs : Nat → String)
    (u : Upload) (tf : String) :
    writeNames ((image_to_image c s k hexs u tf).events) = [] ∨
    ∃ e, writeNames ((image_to_image c s k hexs u tf).events) =
      [unique_filename "converted_img" e (hexs 0)] := by
  cases hck : check_secret s k with
  | false => left; simp [image_to_image, hck, writeNames, writes]
  | true =>
    cases hdec : c.decodeImage u.content with
    | none => left; simp [image_to_image, hck, hdec, writeNames, writes]
    | some raw =>
      by_cases hm : normTarget tf ∈ allowedFormats
      · right
        refine ⟨extOf (normTarget tf), ?_⟩
        simp [image_to_image, hck, hdec, hm, writeNames, writes]
      · left
        simp [image_to_image, hck, hdec, hm, writeNames, writes]

/-- Every name written by `image_compress` is the generated `compressed`
name. -/
theorem names_image_compress (c : Codec) (s k : Option String) (hexs : Nat → String)
    (u : Upload) (q : Int) :
    writeNames ((image_compress c s k hexs u q).events) = [] ∨
    writeNames ((image_compress c s k hexs u q).events) =
      [unique_filename "compressed" "jpg" (hexs 0)] := by
  cases hck : check_secret s k with
  | false => left; simp [image_compress, hck, writeNames, writes]
  | true =>
    cases hdec : c.decodeImage u.content with
    | none => left; simp [image_compress, hck, hdec, writeNames, writes]
    | some raw =>
      by_cases hq : q < 5 ∨ q > 95
      · left; simp [image_compress, hck, hdec, hq, writeNames, writes]
      · right; simp [image_compress, hck, hdec, hq, writeNames, writes]

/-- Every name written by `pdf_to_images` is a generated page name, indexed
consecutively from 0. -/
theorem names_pdf_to_images (c : Codec) (s k : Option String) (hexs : Nat → String)
    (u : Upload) :
    ∃ N, writeNames ((pdf_to_images c s k hexs u).events) =
      (List.range' 0 N).map (pageName hexs) := by
  cases hck : check_secret s k with
  | false => exact ⟨0, by simp [pdf_to_images, hck, writeNames, writes]⟩
  | true =>
    cases hopen : c.fitzOpen u.content with
    | none => exact ⟨0, by simp [pdf_to_images, hck, hopen, writeNames, writes]⟩
    | some pages =>
      obtain ⟨N, hN⟩ := pagesLoop_names c hexs pages 0
      refine ⟨N, ?_⟩
      cases hloop : pagesLoop c hexs 0 pages with
      | ok x =>
        obtain ⟨urls, evs⟩ := x
        rw [hloop] at hN
        simp only [plEvents] at hN
        simp [pdf_to_images, hck, hopen, hloop, writeNames_cons_read, hN]
      | error evs =>
        rw [hloop] at hN
        simp only [plEvents] at hN
        simp [pdf_to_images, hck, hopen, hloop, writeNames_cons_read, hN]

/-- Every name written by `pdf_merge` is the generated `merged` name. -/
theorem names_pdf_merge (c : Codec) (s k : Option String) (hexs : Nat → String)
    (files : List Upload) :
    writeNames ((pdf_merge c s k hexs files).events) = [] ∨
    writeNames ((pdf_merge c s k hexs files).events) =
      [unique_filename "merged" "pdf" (hexs 0)] := by
  cases hck : check_secret s k with
  | false => left; simp [pdf_merge, hck, writeNames, writes]
  | true =>
    by_cases hlen : files.length < 2
    · left; simp [pdf_merge, hck, hlen, writeNames, writes]
    · have hnw := mergeLoop_no_writes c files
      cases hml : mergeLoop c files with
      | error x =>
        obtain ⟨e, evs⟩ := x
        rw [hml] at hnw
        simp only [mergeEvents] at hnw
        left
        simp [pdf_merge, hck, hlen, hml, writeNames, hnw]
      | ok x =>
        obtain ⟨ps, evs⟩ := x
        rw [hml] at hnw
        simp only [mergeEvents] at hnw
        right
        have hev : (pdf_merge c s k hexs files).events =
            evs ++ [Ev.write (unique_filename "merged" "pdf" (hexs 0))
              (c.writePdf ps)] := by
          simp [pdf_merge, hck, hlen, hml]
        rw [hev]
        simp only [writeNames, writes_append, hnw]
        simp [writes]

/-- Every name written by `pdf_split` is a generated split name, indexed
consecutively from 0. -/
theorem names_pdf_split (c : Codec) (s k : Option String) (hexs : Nat → String)
    (u : Upload) :
    ∃ N, writeNames ((pdf_split c s k hexs u).events) =
      (List.range' 0 N).map (splitName hexs) := by
  cases hck : check_secret s k with
  | false => exact ⟨0, by simp [pdf_split, hck, writeNames, writes]⟩
  | true =>
    cases hread : c.pypdfRead u.content with
    | error e => exact ⟨0, by simp [pdf_split, hck, hread, writeNames, writes]⟩
    | ok pages =>
      refine ⟨pages.length, ?_⟩
      simp [pdf_split, hck, hread, writeNames_cons_read, splitLoop_names c hexs pages 0]

/-- Cleanup never writes an artifact. -/
theorem names_cleanup (s k : Option String) (entries : List String)
    (removeOk : String → Bool) :
    writeNames ((cleanup s k entries removeOk).events) = [] := by
  cases hck : check_secret s k with
  | false => simp [cleanup, hck, writeNames, writes]
  | true =>
    simp [cleanup, hck, cleanupLoop_spec, writeNames, writes_map_tryRemove]

/-- Renaming uploads leaves the artifact writes of `image_to_pdf` unchanged
(only a verification error message can mention the client filename). -/
theorem inv_image_to_pdf (c : Codec) (s k : Option String) (hexs : Nat → String)
    (g : String → String) (files : List Upload) :
    writes ((image_to_pdf c s k hexs (files.map (rename g))).events) =
      writes ((image_to_pdf c s k hexs files).events) := by
  cases hck : check_secret s k with
  | false => simp [image_to_pdf, hck]
  | true =>
    have hemp : (files.map (rename g)).isEmpty = files.isEmpty := by
      cases files <;> simp
    cases hfe : files.isEmpty with
    | true => simp [image_to_pdf, hck, hemp, hfe]
    | false =>
      simp only [image_to_pdf, hck, hemp, hfe, if_true, Bool.false_eq_true,
        if_false]
      rw [readAndVerify_rename c g files]
      cases hrv : readAndVerify c files with
      | error x => obtain ⟨nm, evs⟩ := x; simp
      | ok x => obtain ⟨bufs, evs⟩ := x; simp

/-- Renaming the uploads leaves `pdf_merge` entirely unchanged. -/
theorem inv_pdf_merge (c : Codec) (s k : Option String) (hexs : Nat → String)
    (g : String → String) (files : List Upload) :
    pdf_merge c s k hexs (files.map (rename g)) = pdf_merge c s k hexs files := by
  simp only [pdf_merge, List.length_map]
  rw [mergeLoop_rename]

/-- C8: every artifact name generated by any operation has the form
`<prefix>_<hex>.<ext>` via `unique_filename`, with the hex component drawn
verbatim from the uuid4 hex supply (modelling `uuid.uuid4().hex`, the hex
digest of a 128-bit random value), and the artifact writes of every
operation are invariant under any renaming of the client-supplied filenames
— generated names never derive from them. -/
theorem unique_artifact_names :
    (∀ c s k hexs files,
        writeNames ((image_to_pdf c s k hexs files).events) = [] ∨
        writeNames ((image_to_pdf c s k hexs files).events) =
          [unique_filename "converted" "pdf" (hexs 0)]) ∧
    (∀ c s k hexs files,
        writeNames ((scan_to_pdf c s k hexs files).events) = [] ∨
        writeNames ((scan_to_pdf c s k hexs files).events) =
          [unique_filename "converted" "pdf" (hexs 0)]) ∧
    (∀ c s k hexs u tf,
        writeNames ((image_to_image c s k hexs u tf).events) = [] ∨
        ∃ e, writeNames ((image_to_image c s k hexs u tf).events) =
          [unique_filename "converted_img" e (hexs 0)]) ∧
    (∀ c s k hexs u q,
        writeNames ((image_compress c s k hexs u q).events) = [] ∨
        writeNames ((image_compress c s k hexs u q).events) =
          [unique_filename "compressed" "jpg" (hexs 0)]) ∧
    (∀ c s k hexs u, ∃ N,
        writeNames ((pdf_to_images c s k hexs u).events) =
          (List.range' 0 N).map (pageName hexs)) ∧
    (∀ c s k hexs files,
        writeNames ((pdf_merge c s k hexs files).events) = [] ∨
        writeNames ((pdf_merge c s k hexs files).events) =
          [unique_filename "merged" "pdf" (hexs 0)]) ∧
    (∀ c s k hexs u, ∃ N,
        writeNames ((pdf_split c s k hexs u).events) =
          (List.range' 0 N).map (splitName hexs)) ∧
    (∀ s k entries removeOk,
        writeNames ((cleanup s k entries removeOk).events) = []) ∧
    (∀ c s k hexs g files,
        writes ((image_to_pdf c s k hexs (files.map (rename g))).events) =
          writes ((image_to_pdf c s k hexs files).events)) ∧
    (∀ c s k hexs g files,
        writes ((scan_to_pdf c s k hexs (files.map (rename g))).events) =
          writes ((scan_to_pdf c s k hexs files).events)) ∧
    (∀ c s k hexs g u tf,
        image_to_image c s k hexs (rename g u) tf = image_to_image c s k hexs u tf) ∧
    (∀ c s k hexs g u q,
        image_compress c s k hexs (rename g u) q = image_compress c s k hexs u q) ∧
    (∀ c s k hexs g u,
        pdf_to_images c s k hexs (rename g u) = pdf_to_images c s k hexs u) ∧
    (∀ c s k hexs g files,
        pdf_merge c s k hexs (files.map (rename g)) = pdf_merge c s k hexs files) ∧
    (∀ c s k hexs g u,
        pdf_split c s k hexs (rename g u) = pdf_split c s k hexs u) := by
  refine ⟨names_image_to_pdf, names_image_to_pdf, names_image_to_image,
    names_image_compress, names_pdf_to_images, names_pdf_merge, names_pdf_split,
    names_cleanup, inv_image_to_pdf, inv_image_to_pdf, ?_, ?_, ?_,
    inv_pdf_merge, ?_⟩
  · intro c s k hexs g u tf; rfl
  · intro c s k hexs g u q; rfl
  · intro c s k hexs g u; rfl
  · intro c s k hexs g u; rfl

end Digit5
